import Mathlib

/-!
Verification of the gesture-driven physics and accumulation engine of the
Suspended-Reality repository.

The development is a shallow embedding over the rationals of:

* the HandPhysics spring-damper class (FluidScene source, class HandPhysics);
* the per-frame physics driving loop (FluidScene useFrame, dt clamping);
* the smear accumulation fragment shader (smearFragmentShader), per cell;
* the ping-pong double-buffer discipline of the two smear render targets;
* the per-slot gesture classifier of WebcamHandler.tsx (detect loop).

Machine floating point is modelled by exact rational arithmetic.  Square
roots of rationals are irrational in general, so every quantity the source
obtains from a square root (GLSL length and distance, Math.hypot) is either
(a) compared in exactly equivalent squared form (both sides of the source
comparison are nonnegative, and squaring is strictly monotone on
nonnegatives), or (b) passed to the embedded function as an explicit input
whose defining equation (sq of the input equals the squared expression) is
carried as a hypothesis where a theorem needs it.  Each such point is noted
at its definition.
-/

namespace SuspReal

/-- Two-dimensional vector over the rationals, the model of THREE.Vector2
and of GLSL vec2 values. -/
structure Vec2 where
  x : ℚ
  y : ℚ
deriving DecidableEq, Repr

namespace Vec2

/-- Componentwise addition. -/
def add (a b : Vec2) : Vec2 := ⟨a.x + b.x, a.y + b.y⟩

/-- Componentwise subtraction, the model of Vector2.subVectors. -/
def sub (a b : Vec2) : Vec2 := ⟨a.x - b.x, a.y - b.y⟩

/-- Scalar multiplication, the model of Vector2.multiplyScalar. -/
def scale (k : ℚ) (a : Vec2) : Vec2 := ⟨k * a.x, k * a.y⟩

/-- Squared Euclidean length, the model of Vector2.lengthSq and the square
of GLSL length. -/
def lengthSq (a : Vec2) : ℚ := a.x * a.x + a.y * a.y

/-- Dot product. -/
def dot (a b : Vec2) : ℚ := a.x * b.x + a.y * b.y

/-- The zero vector. -/
def zero : Vec2 := ⟨0, 0⟩

end Vec2

/-- Linear interpolation, the model of the lerp helper of WebcamHandler
(lerp(start, end, amt) = (1 - amt) * start + amt * end) and of GLSL
mix(x, y, a) = x * (1 - a) + y * a. -/
def lerp (start stop amt : ℚ) : ℚ := (1 - amt) * start + amt * stop

/-- Clamp to an interval, the model of Math.max(lo, Math.min(hi, x)) and of
GLSL clamp. -/
def clampQ (lo hi x : ℚ) : ℚ := max lo (min hi x)

/-- The three gesture values of the GestureType union. -/
inductive Gesture where
  | NONE
  | PALM
  | PINCH
deriving DecidableEq, Repr

/-! ## HandPhysics

Model of the class HandPhysics in the FluidScene source.  Fields mirror the
class fields; update mirrors the update method body statement by
statement. -/

/-- The mutable state of one HandPhysics instance. -/
structure PhysState where
  anchorPoint : Vec2
  currentStretch : Vec2
  velocity : Vec2
  isDragging : Bool
deriving DecidableEq, Repr

/-- Startup state of a HandPhysics instance: anchor at the centre, zero
stretch and velocity, not dragging. -/
def physInit : PhysState :=
  { anchorPoint := ⟨1/2, 1/2⟩
    currentStretch := Vec2.zero
    velocity := Vec2.zero
    isDragging := false }

/-- One call of HandPhysics.update.  Arguments are the hand position handPos
(components in source order), the gesture, the reboundElasticity parameter
of FluidParams, and the already clamped frame time dt. -/
def physUpdate (st : PhysState) (handPos : Vec2) (gesture : Gesture)
    (reboundElasticity dt : ℚ) : PhysState :=
  let targetPos : Vec2 := ⟨handPos.x, 1 - handPos.y⟩
  if gesture = Gesture.PINCH then
    if st.isDragging = false then
      { st with
          isDragging := true
          anchorPoint := targetPos
          velocity := Vec2.zero
          currentStretch := Vec2.zero }
    else
      { st with currentStretch := targetPos.sub st.anchorPoint }
  else
    let springK : ℚ := 10
    let damping : ℚ := 5 * (21/20 - reboundElasticity)
    let force : Vec2 := st.currentStretch.scale (-springK)
    let dampingForce : Vec2 := st.velocity.scale (-damping)
    let acceleration : Vec2 := force.add dampingForce
    let v' : Vec2 := st.velocity.add (acceleration.scale dt)
    let s' : Vec2 := st.currentStretch.add (v'.scale dt)
    if s'.lengthSq < 1/100000 ∧ v'.lengthSq < 1/10000 then
      { st with
          isDragging := false
          currentStretch := Vec2.zero
          velocity := Vec2.zero }
    else
      { st with
          isDragging := false
          currentStretch := s'
          velocity := v' }

/-- The per-frame dt fed to physics by the FluidScene useFrame loop:
dt = Math.min(delta, 0.1). -/
def clampedDt (delta : ℚ) : ℚ := min delta (1/10)

/-! ## GestureClassifier

Model of the per-slot state update inside the detect loop of
WebcamHandler.tsx.  A landmark is consumed by the source only through its x
and y fields.  All Math.hypot comparisons of the source compare two
nonnegative quantities, so they are embedded in exactly equivalent squared
form through hypotSq (a < b with a, b nonnegative iff a * a < b * b).  The
single place where the source uses the value (not a comparison) of a
square root is the hand size that drives proximity; that value is passed to
the update as the explicit input handSize. -/

/-- One MediaPipe hand landmark, restricted to the two fields the source
reads. -/
structure Landmark where
  x : ℚ
  y : ℚ
deriving DecidableEq, Repr

/-- The handedness label of a detection result. -/
inductive Handedness where
  | Left
  | Right
deriving DecidableEq, Repr

/-- Index-fingertip tracking state (position and smoothed velocity). -/
structure IndexTip where
  x : ℚ
  y : ℚ
  vx : ℚ
  vy : ℚ
deriving DecidableEq, Repr

/-- Persistent per-slot classifier state (handsStateRef entries). -/
structure HandSlotState where
  gesture : Gesture
  smoothedPos : Vec2
  smoothedZ : ℚ
  indexTipState : IndexTip
deriving DecidableEq, Repr

/-- The canonical exported per-hand record (HandPoint of types.ts). -/
structure HandPoint where
  gesture : Gesture
  x : ℚ
  y : ℚ
  z : ℚ
  indexTip : IndexTip
deriving DecidableEq, Repr

/-- Startup value of a hand slot. -/
def slotInit : HandSlotState :=
  { gesture := Gesture.NONE
    smoothedPos := ⟨1/2, 1/2⟩
    smoothedZ := 0
    indexTipState := ⟨1/2, 1/2, 0, 0⟩ }

/-- Square of Math.hypot x y. -/
def hypotSq (x y : ℚ) : ℚ := x * x + y * y

/-- The fingersIndices table of the source: (tip, pip) landmark index pairs
for the five fingers. -/
def fingersIndices : List (ℕ × ℕ) := [(4, 2), (8, 6), (12, 10), (16, 14), (20, 18)]

/-- Whether one finger counts as extended: the source test
Math.hypot(tip - wrist) > Math.hypot(pip - wrist) * 1.1, in squared form
(1.1 squared is 1.21). -/
def fingerExtended (wrist tip pip : Landmark) : Bool :=
  decide (hypotSq (tip.x - wrist.x) (tip.y - wrist.y) >
    hypotSq (pip.x - wrist.x) (pip.y - wrist.y) * (121/100))

/-- The extended-finger count loop of the source.  Each landmark access is
through List.get?, so a list missing a required index makes the whole
computation fail (the source performs no length check; reading a missing
element of the landmark array is a runtime type error there). -/
def extendedFingersCount (lms : List Landmark) (wrist : Landmark) : Option ℕ := do
  let pairs ← fingersIndices.mapM (fun fp => do
    let tip ← lms.get? fp.1
    let pip ← lms.get? fp.2
    pure (tip, pip))
  pure (pairs.countP (fun tp => fingerExtended wrist tp.1 tp.2))

/-- The back-of-hand orientation test of the source (2D cross product of
wrist to indexMcp and wrist to pinkyMcp, thresholded at 0.002, with the
accepted sign flipped by handedness). -/
def isBackFacing (wrist indexMcp pinkyMcp : Landmark) (handed : Handedness) : Bool :=
  let axv := indexMcp.x - wrist.x
  let ayv := indexMcp.y - wrist.y
  let bxv := pinkyMcp.x - wrist.x
  let byv := pinkyMcp.y - wrist.y
  let crossZ := axv * byv - ayv * bxv
  match handed with
  | Handedness.Left => decide (crossZ < -(1/500))
  | Handedness.Right => decide (crossZ > 1/500)

/-- The pinch test of the source: thumb-tip to index-tip distance below the
PINCH_THRESHOLD 0.05, in squared form (0.05 squared is 1/400). -/
def isPinchingOf (thumbTip indexTip : Landmark) : Bool :=
  decide (hypotSq (thumbTip.x - indexTip.x) (thumbTip.y - indexTip.y) < 1/400)

/-- The per-slot update for a slot with landmark data this tick, mirroring
the occupied branch of the detect loop.  handSize is the Euclidean distance
between the wrist and middleMcp landmarks, passed in explicitly (see the
section comment); the proximity target is its normalisation
(handSize - 0.05) / 0.2 clamped to the unit interval.  Returns the updated
slot state and the exported HandPoint, or none when a required landmark is
missing. -/
def updateOccupied (st : HandSlotState) (lms : List Landmark)
    (handed : Handedness) (handSize : ℚ) : Option (HandSlotState × HandPoint) := do
  let wrist ← lms.get? 0
  let thumbTip ← lms.get? 4
  let indexTip ← lms.get? 8
  let middleMcp ← lms.get? 9
  let indexMcp ← lms.get? 5
  let pinkyMcp ← lms.get? 17
  let rawZ := (handSize - 1/20) / (1/5)
  let targetZ := max 0 (min 1 rawZ)
  let isPinching := isPinchingOf thumbTip indexTip
  let extCount ← extendedFingersCount lms wrist
  let isPalmOpen := decide (extCount ≥ 5) && isBackFacing wrist indexMcp pinkyMcp handed
  let detectedGesture :=
    if isPinching then Gesture.PINCH
    else if isPalmOpen then Gesture.PALM
    else Gesture.NONE
  let targetX :=
    if isPinching then (thumbTip.x + indexTip.x) / 2 else middleMcp.x
  let targetY :=
    if isPinching then (thumbTip.y + indexTip.y) / 2 else middleMcp.y
  let smoothedPos' : Vec2 :=
    ⟨lerp st.smoothedPos.x targetX (1/4), lerp st.smoothedPos.y targetY (1/4)⟩
  let smoothedZ' := lerp st.smoothedZ targetZ (1/10)
  let rawVx := indexTip.x - st.indexTipState.x
  let rawVy := indexTip.y - st.indexTipState.y
  let tip' : IndexTip :=
    { x := indexTip.x
      y := indexTip.y
      vx := lerp st.indexTipState.vx (rawVx * 50) (3/10)
      vy := lerp st.indexTipState.vy (rawVy * 50) (3/10) }
  let st' : HandSlotState :=
    { gesture := detectedGesture
      smoothedPos := smoothedPos'
      smoothedZ := smoothedZ'
      indexTipState := tip' }
  pure (st', { gesture := st'.gesture
               x := st'.smoothedPos.x
               y := st'.smoothedPos.y
               z := st'.smoothedZ
               indexTip := tip' })

/-- The per-slot update for a slot with no landmark data this tick (the
lost-hand branch of the detect loop): gesture forced to NONE, proximity
smoothed toward 0, fingertip velocity zeroed, positions kept. -/
def updateUnoccupied (st : HandSlotState) : HandSlotState × HandPoint :=
  let st' : HandSlotState :=
    { st with
        gesture := Gesture.NONE
        smoothedZ := lerp st.smoothedZ 0 (1/10)
        indexTipState := { st.indexTipState with vx := 0, vy := 0 } }
  (st', { gesture := Gesture.NONE
          x := st'.smoothedPos.x
          y := st'.smoothedPos.y
          z := st'.smoothedZ
          indexTip := ⟨st'.indexTipState.x, st'.indexTipState.y, 0, 0⟩ })

/-! ## AccumulationField (smear fragment shader)

Model of the per-cell computation of smearFragmentShader.  A cell carries
the four channels of the render target: RG encode the stroke direction, B
the stroke speed, A the intensity.  GLSL distance(vUv, handPos) and
length(uIndexVel[i]) are the two square roots of the shader; they enter the
model as the explicit per-hand inputs dist and velMag (see the file
comment).  GLSL normalize(uIndexVel[i]) is vel scaled by the reciprocal of
its length, expressed with the velMag input; GLSL normalize(totalVel) acts
on an internally accumulated vector, so it is supplied as the oracle
argument nrm (every theorem below either holds for all nrm or concerns the
definedness of that very normalisation). -/

/-- One cell of the smear field: channels RG (direction), B (speed),
A (intensity). -/
structure SmearCell where
  rg : Vec2
  b : ℚ
  a : ℚ
deriving DecidableEq, Repr

/-- The cleared render-target cell the field starts from. -/
def smearZero : SmearCell := ⟨⟨0, 0⟩, 0, 0⟩

/-- The per-hand inputs of the shader, as seen from one cell: the raw
velocity uniform, the distance from the cell to the (y-flipped) fingertip
position, and the velocity magnitude. -/
structure BrushInput where
  vel : Vec2
  dist : ℚ
  velMag : ℚ
deriving DecidableEq, Repr

/-- GLSL smoothstep(e0, e1, x). -/
def smoothstepQ (e0 e1 x : ℚ) : ℚ :=
  let t := clampQ 0 1 ((x - e0) / (e1 - e0))
  t * t * (3 - 2 * t)

/-- One iteration of the drawing loop of the shader (one hand), threading
the accumulators (totalBrush, totalVel, maxInputSpeed). -/
def brushAccumStep (uRadius : ℚ) (h : BrushInput) (acc : ℚ × Vec2 × ℚ) :
    ℚ × Vec2 × ℚ :=
  if h.velMag > 1/50 then
    let brush := smoothstepQ uRadius (uRadius * (2/5)) h.dist
    if brush > 0 then
      let dir := h.vel.scale (1 / h.velMag)
      (acc.1 + brush, acc.2.1.add (dir.scale brush), max acc.2.2 h.velMag)
    else acc
  else acc

/-- The full two-hand drawing loop of the shader. -/
def brushAccum (uRadius : ℚ) (h0 h1 : BrushInput) : ℚ × Vec2 × ℚ :=
  brushAccumStep uRadius h1 (brushAccumStep uRadius h0 (0, Vec2.zero, 0))

/-- The decay portion of the shader: exponential decay of the intensity by
the momentum-adjusted rate, with the hard cutoff to exactly 0 below
0.005. -/
def decayAlpha (uDecay : ℚ) (lastState : SmearCell) : ℚ :=
  let storedSpeed := lastState.b
  let momentumFactor := 1 + storedSpeed * 2
  let dynamicDecay := uDecay / momentumFactor
  let newAlpha := lastState.a * (1 - dynamicDecay)
  if newAlpha < 1/200 then 0 else newAlpha

/-- One full per-cell, per-tick evaluation of smearFragmentShader. -/
def smearStep (nrm : Vec2 → Vec2) (uDecay uRadius uIntensity : ℚ)
    (h0 h1 : BrushInput) (lastState : SmearCell) : SmearCell :=
  let newAlpha := decayAlpha uDecay lastState
  let acc := brushAccum uRadius h0 h1
  let totalBrush := acc.1
  let totalVel := acc.2.1
  let maxInputSpeed := acc.2.2
  if totalBrush > 0 then
    let newAlpha' := min 1 (newAlpha + uIntensity * totalBrush)
    let encodedDir := ((nrm totalVel).scale (1/2)).add ⟨1/2, 1/2⟩
    let encodedSpeed := clampQ 0 1 maxInputSpeed
    let tmix := min 1 (totalBrush * (5/2))
    { rg := ⟨lerp lastState.rg.x encodedDir.x tmix,
             lerp lastState.rg.y encodedDir.y tmix⟩
      b := lerp lastState.b encodedSpeed tmix
      a := newAlpha' }
  else
    { rg := lastState.rg, b := lastState.b, a := newAlpha }

/-- The state of one cell over time, from a given start cell, with one
smearStep per tick, per-tick parameter values (decay, radius, intensity)
and per-tick hand inputs. -/
def smearIterFrom (nrm : Vec2 → Vec2) (params : ℕ → ℚ × ℚ × ℚ)
    (hands : ℕ → BrushInput × BrushInput) (start : SmearCell) : ℕ → SmearCell
  | 0 => start
  | n + 1 =>
      smearStep nrm (params n).1 (params n).2.1 (params n).2.2
        (hands n).1 (hands n).2 (smearIterFrom nrm params hands start n)

/-- The cell state over time from the cleared render target (the reachable
states of a cell). -/
def smearIter (nrm : Vec2 → Vec2) (params : ℕ → ℚ × ℚ × ℚ)
    (hands : ℕ → BrushInput × BrushInput) : ℕ → SmearCell :=
  smearIterFrom nrm params hands smearZero

/-- Variant of smearStep that makes the undefinedness of GLSL
normalize(vec2(0.0)) explicit: the brushed branch evaluates
normalize(totalVel) with no guard on the length of totalVel, so the checked
step reports none exactly when that normalisation receives a zero-length
vector, and otherwise returns the smearStep cell. -/
def smearStepChecked (nrm : Vec2 → Vec2) (uDecay uRadius uIntensity : ℚ)
    (h0 h1 : BrushInput) (lastState : SmearCell) : Option SmearCell :=
  let acc := brushAccum uRadius h0 h1
  if acc.1 > 0 ∧ acc.2.1.lengthSq = 0 then none
  else some (smearStep nrm uDecay uRadius uIntensity h0 h1 lastState)

/-! ## Ping-pong double buffering

Model of the render-pass bookkeeping of the useFrame body: two render
targets indexed by a Bool, a read pointer and a write pointer.  One tick
sets uLastFrame to the read target, renders the shader into the write
target, swaps the two pointers, and hands the now-current read target to
the composite pass. -/

/-- The double-buffer state: which buffer fboRead and fboWrite point at,
and the contents of both buffers. -/
structure PingPong (α : Type) where
  readIdx : Bool
  writeIdx : Bool
  tex : Bool → α

/-- Startup double-buffer state over a given cleared content. -/
def pingPongInit {α : Type} (cleared : α) : PingPong α :=
  { readIdx := false, writeIdx := true, tex := fun _ => cleared }

/-- One tick of the smear render pass: render step applied to the read
buffer into the write buffer, then the pointer swap.  The second component
is the texture the composite pass samples this tick (fboRead after the
swap). -/
def pingPongTick {α : Type} (step : α → α) (pp : PingPong α) : PingPong α × α :=
  let uLastFrame := pp.tex pp.readIdx
  let written := step uLastFrame
  let tex' := fun i => if i = pp.writeIdx then written else pp.tex i
  let pp' : PingPong α :=
    { readIdx := pp.writeIdx, writeIdx := pp.readIdx, tex := tex' }
  (pp', pp'.tex pp'.readIdx)

/-! ## Per-slot classifier trace -/

/-- One tick of one classifier slot.  The input is the optional landmark
data for the slot (list, handedness, and the handSize square-root input);
none means the slot is unoccupied this tick.  A failing occupied update
(missing landmark) yields no exported point and leaves the slot state
unchanged, modelling the aborted frame. -/
def slotStep (st : HandSlotState)
    (inp : Option (List Landmark × Handedness × ℚ)) :
    HandSlotState × Option HandPoint :=
  match inp with
  | none =>
      let r := updateUnoccupied st
      (r.1, some r.2)
  | some (lms, hd, hs) =>
      match updateOccupied st lms hd hs with
      | none => (st, none)
      | some r => (r.1, some r.2)

/-- The slot state over ticks, from the startup slot state. -/
def slotTrace (inputs : ℕ → Option (List Landmark × Handedness × ℚ)) :
    ℕ → HandSlotState
  | 0 => slotInit
  | n + 1 => (slotStep (slotTrace inputs n) (inputs n)).1

/-- The HandPoint exported at a tick (none when the occupied update
fails). -/
def slotExport (inputs : ℕ → Option (List Landmark × Handedness × ℚ))
    (n : ℕ) : Option HandPoint :=
  (slotStep (slotTrace inputs n) (inputs n)).2

/-! ## Physics iteration and its Lyapunov function -/

/-- The physics state over repeated HandPhysics.update calls with a fixed
elasticity and a fixed per-tick dt, and arbitrary per-tick hand positions
and gestures. -/
def physIter (e dt : ℚ) (pos : ℕ → Vec2) (g : ℕ → Gesture)
    (st0 : PhysState) : ℕ → PhysState
  | 0 => st0
  | n + 1 => physUpdate (physIter e dt pos g st0 n) (pos n) (g n) e dt

/-- The damping coefficient of the idle branch of HandPhysics.update. -/
def dampingOf (e : ℚ) : ℚ := 5 * (21/20 - e)

/-- Quadratic Lyapunov form for the idle spring dynamics.  It is the
classical invariant binary quadratic form of the one-step linear map: with
d the damping and t the tick length, one semi-implicit Euler step scales it
by exactly (1 - d * t). -/
def lyapV (e dt : ℚ) (s v : Vec2) : ℚ :=
  10 * s.lengthSq + (dampingOf e - 10 * dt) * s.dot v
    + (1 - dampingOf e * dt) * v.lengthSq

/-! ## Concrete instances used by witnesses and counterexamples -/

/-- Concrete physics state used to witness claim C4: unit stretch along x,
zero velocity, not dragging. -/
def c4State : PhysState := ⟨⟨1/2, 1/2⟩, ⟨1, 0⟩, ⟨0, 0⟩, false⟩

/-- Concrete 21-point landmark frame used to witness claim C3: thumb tip
and index tip coincide at (1/2, 1/2), so the pinch test fires. -/
def c3Lms : List Landmark :=
  [⟨0, 0⟩, ⟨0, 0⟩, ⟨0, 0⟩, ⟨0, 0⟩, ⟨1/2, 1/2⟩, ⟨0, 0⟩, ⟨0, 0⟩, ⟨0, 0⟩,
   ⟨1/2, 1/2⟩, ⟨0, 0⟩, ⟨0, 0⟩, ⟨0, 0⟩, ⟨0, 0⟩, ⟨0, 0⟩, ⟨0, 0⟩, ⟨0, 0⟩,
   ⟨0, 0⟩, ⟨0, 0⟩, ⟨0, 0⟩, ⟨0, 0⟩, ⟨0, 0⟩]

/-- The slot state produced by the occupied update on c3Lms from the
startup slot. -/
def c3Slot : HandSlotState :=
  { gesture := Gesture.PINCH
    smoothedPos := ⟨1/2, 1/2⟩
    smoothedZ := 0
    indexTipState := ⟨1/2, 1/2, 0, 0⟩ }

/-- The exported record produced alongside c3Slot. -/
def c3Point : HandPoint :=
  { gesture := Gesture.PINCH, x := 1/2, y := 1/2, z := 0
    indexTip := ⟨1/2, 1/2, 0, 0⟩ }

/-- In-range predicate for a slot state: smoothed position and proximity
inside the unit ranges. -/
def slotInRange (st : HandSlotState) : Prop :=
  0 ≤ st.smoothedPos.x ∧ st.smoothedPos.x ≤ 1
    ∧ 0 ≤ st.smoothedPos.y ∧ st.smoothedPos.y ≤ 1
    ∧ 0 ≤ st.smoothedZ ∧ st.smoothedZ ≤ 1

/-- In-range predicate for all landmarks of a frame. -/
def lmsInRange (lms : List Landmark) : Prop :=
  ∀ lm ∈ lms, 0 ≤ lm.x ∧ lm.x ≤ 1 ∧ 0 ≤ lm.y ∧ lm.y ≤ 1

/-- Concrete 21-point landmark frame used against claim C8: the middle
finger base (landmark 9) sits at x = 10, far outside the unit interval,
and no pinch fires. -/
def c8Lms : List Landmark :=
  [⟨0, 0⟩, ⟨0, 0⟩, ⟨0, 0⟩, ⟨0, 0⟩, ⟨0, 0⟩, ⟨0, 0⟩, ⟨0, 0⟩, ⟨0, 0⟩,
   ⟨1, 1⟩, ⟨10, 1/2⟩, ⟨0, 0⟩, ⟨0, 0⟩, ⟨0, 0⟩, ⟨0, 0⟩, ⟨0, 0⟩, ⟨0, 0⟩,
   ⟨0, 0⟩, ⟨0, 0⟩, ⟨0, 0⟩, ⟨0, 0⟩, ⟨0, 0⟩]

/-- The physics state used against claim C2 as stated: stretch (0.1, 0),
outside the snap window. -/
def c2State : PhysState := ⟨⟨1/2, 1/2⟩, ⟨1/10, 0⟩, ⟨0, 0⟩, false⟩

/-! ## Helper lemmas -/

theorem Vec2.lengthSq_nonneg (a : Vec2) : 0 ≤ a.lengthSq := by
  have hx := mul_self_nonneg a.x
  have hy := mul_self_nonneg a.y
  simpa [Vec2.lengthSq] using add_nonneg hx hy

theorem clampQ_mem (lo hi x : ℚ) (h : lo ≤ hi) :
    lo ≤ clampQ lo hi x ∧ clampQ lo hi x ≤ hi := by
  refine ⟨le_max_left _ _, max_le h (min_le_left _ _)⟩

theorem lerp_mem_unit (a b t : ℚ) (ha : 0 ≤ a) (ha1 : a ≤ 1) (hb : 0 ≤ b)
    (hb1 : b ≤ 1) (ht : 0 ≤ t) (ht1 : t ≤ 1) :
    0 ≤ lerp a b t ∧ lerp a b t ≤ 1 := by
  unfold lerp
  constructor
  · nlinarith
  · nlinarith

theorem smoothstepQ_mem (e0 e1 x : ℚ) :
    0 ≤ smoothstepQ e0 e1 x ∧ smoothstepQ e0 e1 x ≤ 1 := by
  have key : ∀ t : ℚ, 0 ≤ t → t ≤ 1 → 0 ≤ t * t * (3 - 2 * t) ∧ t * t * (3 - 2 * t) ≤ 1 := by
    intro t h0 h1
    constructor
    · nlinarith
    · nlinarith [mul_nonneg (mul_self_nonneg (1 - t)) (show (0:ℚ) ≤ 1 + 2 * t by linarith)]
  unfold smoothstepQ clampQ
  exact key _ (le_max_left _ _) (max_le zero_le_one (min_le_left _ _))

/-! ## Claim C6: ping-pong buffer discipline -/

/-- Claim C6: on every tick the smear update pass reads only the generation
that was current before the tick and writes only the other generation; after
the per-tick swap the read and write generations are still distinct, and the
just-written generation is both the texture sampled by the composite pass
this tick and the decay input (read buffer) of the next tick. -/
theorem pingpong_generation_discipline {α : Type} (step : α → α)
    (pp : PingPong α) (hdistinct : pp.readIdx ≠ pp.writeIdx) :
    (pingPongTick step pp).1.tex pp.writeIdx = step (pp.tex pp.readIdx)
    ∧ (pingPongTick step pp).1.tex pp.readIdx = pp.tex pp.readIdx
    ∧ (pingPongTick step pp).1.readIdx ≠ (pingPongTick step pp).1.writeIdx
    ∧ (pingPongTick step pp).2 = step (pp.tex pp.readIdx)
    ∧ (pingPongTick step pp).1.tex (pingPongTick step pp).1.readIdx
        = step (pp.tex pp.readIdx) := by
  refine ⟨?_, ?_, ?_, ?_, ?_⟩ <;>
    simp [pingPongTick, hdistinct, Ne.symm hdistinct]

/-- Witness for C6 at the startup double buffer over natural-number
contents with the successor function as the render step. -/
theorem pingpong_generation_discipline_witness :
    (pingPongTick Nat.succ (pingPongInit 0)).1.tex (pingPongInit 0).writeIdx
        = Nat.succ ((pingPongInit 0).tex (pingPongInit 0).readIdx)
    ∧ (pingPongTick Nat.succ (pingPongInit 0)).1.tex (pingPongInit 0).readIdx
        = (pingPongInit 0).tex (pingPongInit 0).readIdx
    ∧ (pingPongTick Nat.succ (pingPongInit 0)).1.readIdx
        ≠ (pingPongTick Nat.succ (pingPongInit 0)).1.writeIdx
    ∧ (pingPongTick Nat.succ (pingPongInit 0)).2
        = Nat.succ ((pingPongInit 0).tex (pingPongInit 0).readIdx)
    ∧ (pingPongTick Nat.succ (pingPongInit 0)).1.tex
          (pingPongTick Nat.succ (pingPongInit 0)).1.readIdx
        = Nat.succ ((pingPongInit 0).tex (pingPongInit 0).readIdx) :=
  pingpong_generation_discipline Nat.succ (pingPongInit 0) (by decide)

/-! ## Claim C9: unoccupied slot tick -/

/-- Claim C9: on a tick with no landmark data for a slot, the classifier
sets the slot gesture to NONE, smooths the proximity toward 0 with factor
0.1 (so it becomes 0.9 of its previous value), forces the fingertip
velocity to exactly (0, 0), and keeps the smoothed position and fingertip
position unchanged; the whole resulting slot state and exported record are
determined by exactly these effects, so no other field changes. -/
theorem unoccupied_slot_effect (st : HandSlotState) :
    updateUnoccupied st =
      ({ gesture := Gesture.NONE
         smoothedPos := st.smoothedPos
         smoothedZ := (9/10) * st.smoothedZ
         indexTipState := ⟨st.indexTipState.x, st.indexTipState.y, 0, 0⟩ },
       { gesture := Gesture.NONE
         x := st.smoothedPos.x
         y := st.smoothedPos.y
         z := (9/10) * st.smoothedZ
         indexTip := ⟨st.indexTipState.x, st.indexTipState.y, 0, 0⟩ }) := by
  unfold updateUnoccupied
  simp only [Prod.mk.injEq, HandSlotState.mk.injEq, HandPoint.mk.injEq,
    IndexTip.mk.injEq, lerp]
  norm_num

/-! ## Claim C10: dragging state machine -/

/-- Claim C10: after every HandPhysics.update call, isDragging holds iff the
gesture passed to the call was PINCH; on a PINCH tick entered with
isDragging already true the anchor is unchanged and the stretch is the
y-flipped target position minus that anchor; on a PINCH tick entered with
isDragging false the anchor snaps to the target and stretch and velocity
are exactly (0, 0). -/
theorem phys_dragging_iff_pinch (st : PhysState) (handPos : Vec2)
    (g : Gesture) (e dt : ℚ) :
    ((physUpdate st handPos g e dt).isDragging = decide (g = Gesture.PINCH))
    ∧ (g = Gesture.PINCH → st.isDragging = true →
        (physUpdate st handPos g e dt).anchorPoint = st.anchorPoint
        ∧ (physUpdate st handPos g e dt).currentStretch
            = (Vec2.mk handPos.x (1 - handPos.y)).sub st.anchorPoint
        ∧ (physUpdate st handPos g e dt).velocity = st.velocity)
    ∧ (g = Gesture.PINCH → st.isDragging = false →
        (physUpdate st handPos g e dt).anchorPoint = ⟨handPos.x, 1 - handPos.y⟩
        ∧ (physUpdate st handPos g e dt).currentStretch = Vec2.zero
        ∧ (physUpdate st handPos g e dt).velocity = Vec2.zero) := by
  cases g <;> rcases hd : st.isDragging <;>
    simp only [physUpdate, hd] <;>
    refine ⟨?_, ?_, ?_⟩ <;> (try split) <;> (try split) <;> simp_all

/-- Witness for C10: a PINCH tick entered while already dragging keeps the
anchor and recomputes the stretch from it, and reports dragging. -/
theorem phys_dragging_iff_pinch_witness :
    ((physUpdate { physInit with isDragging := true } ⟨1/4, 1/4⟩
        Gesture.PINCH (9/10) (1/60)).anchorPoint
      = ({ physInit with isDragging := true } : PhysState).anchorPoint)
    ∧ ((physUpdate { physInit with isDragging := true } ⟨1/4, 1/4⟩
        Gesture.PINCH (9/10) (1/60)).currentStretch
      = (Vec2.mk (1/4) (1 - 1/4)).sub
          ({ physInit with isDragging := true } : PhysState).anchorPoint)
    ∧ ((physUpdate { physInit with isDragging := true } ⟨1/4, 1/4⟩
        Gesture.PINCH (9/10) (1/60)).velocity
      = ({ physInit with isDragging := true } : PhysState).velocity) :=
  (phys_dragging_iff_pinch { physInit with isDragging := true } ⟨1/4, 1/4⟩
    Gesture.PINCH (9/10) (1/60)).2.1 rfl rfl

/-! ## Claim C4: idle tick is one semi-implicit Euler step -/

/-- Claim C4: on every idle (non-PINCH) tick, HandPhysics.update performs
one semi-implicit Euler step of a damped spring toward zero: with
damping = 5 * (1.05 - reboundElasticity), the new velocity is
velocity + (-10 * stretch - damping * velocity) * dt, the new stretch is
stretch + (new velocity) * dt (so the velocity update is applied first),
provided the snap-to-zero test on the integrated values does not fire; and
the dt used by the driving loop is the frame delta clamped to at most
0.1. -/
theorem phys_idle_semi_implicit_euler (st : PhysState) (handPos : Vec2)
    (g : Gesture) (e delta : ℚ) (hg : g ≠ Gesture.PINCH)
    (hnosnap :
      ¬((st.currentStretch.add
            ((st.velocity.add
              (((st.currentStretch.scale (-10)).add
                  (st.velocity.scale (-(5 * (21/20 - e))))).scale
                (clampedDt delta))).scale (clampedDt delta))).lengthSq
          < 1/100000
        ∧ (st.velocity.add
            (((st.currentStretch.scale (-10)).add
                (st.velocity.scale (-(5 * (21/20 - e))))).scale
              (clampedDt delta))).lengthSq < 1/10000)) :
    clampedDt delta ≤ 1/10
    ∧ (delta ≤ 1/10 → clampedDt delta = delta)
    ∧ (physUpdate st handPos g e (clampedDt delta)).velocity
        = st.velocity.add
            (((st.currentStretch.scale (-10)).add
                (st.velocity.scale (-(5 * (21/20 - e))))).scale (clampedDt delta))
    ∧ (physUpdate st handPos g e (clampedDt delta)).currentStretch
        = st.currentStretch.add
            (((physUpdate st handPos g e (clampedDt delta)).velocity).scale
              (clampedDt delta)) := by
  have h1 : clampedDt delta ≤ 1/10 := min_le_right _ _
  have h2 : delta ≤ 1/10 → clampedDt delta = delta := fun h => min_eq_left h
  cases g with
  | PINCH => exact absurd rfl hg
  | NONE =>
      refine ⟨h1, h2, ?_, ?_⟩ <;>
        · simp only [physUpdate]
          rw [if_neg hg]
          split
          · exact absurd ‹_› hnosnap
          · rfl
  | PALM =>
      refine ⟨h1, h2, ?_, ?_⟩ <;>
        · simp only [physUpdate]
          rw [if_neg hg]
          split
          · exact absurd ‹_› hnosnap
          · rfl

/-- Witness for C4 at a concrete idle tick (frame delta 1/2, clamped to
1/10, elasticity 9/10). -/
theorem phys_idle_semi_implicit_euler_witness :
    (physUpdate c4State ⟨1/2, 1/2⟩ Gesture.NONE (9/10) (clampedDt (1/2))).velocity
        = c4State.velocity.add
            (((c4State.currentStretch.scale (-10)).add
                (c4State.velocity.scale (-(5 * (21/20 - 9/10))))).scale (clampedDt (1/2)))
    ∧ (physUpdate c4State ⟨1/2, 1/2⟩ Gesture.NONE (9/10) (clampedDt (1/2))).currentStretch
        = c4State.currentStretch.add
            (((physUpdate c4State ⟨1/2, 1/2⟩ Gesture.NONE (9/10)
                (clampedDt (1/2))).velocity).scale (clampedDt (1/2))) :=
  have h := phys_idle_semi_implicit_euler c4State ⟨1/2, 1/2⟩ Gesture.NONE (9/10) (1/2)
    (by decide)
    (by norm_num [c4State, clampedDt, Vec2.add, Vec2.scale, Vec2.lengthSq])
  ⟨h.2.2.1, h.2.2.2⟩

/-! ## Claim C3: gesture resolution priority -/

/-- Claim C3: for every landmark frame processed for an occupied slot, the
resolved gesture follows the strict priority PINCH over PALM over NONE: the
slot reports PINCH exactly when the squared thumb-tip-to-index-tip distance
is below 0.05 squared (equivalently, the Euclidean distance is below 0.05);
it reports PALM exactly when it is not pinching, at least five fingers are
extended, and the handedness-flipped orientation test passes; otherwise it
reports NONE; PINCH and PALM are never reported simultaneously since the
gesture is a single value and the pinch branch wins. -/
theorem gesture_priority_resolution
    (st : HandSlotState) (lms : List Landmark) (handed : Handedness)
    (handSize : ℚ) (wrist thumbTip indexTip middleMcp indexMcp pinkyMcp : Landmark)
    (extCount : ℕ) (st' : HandSlotState) (hp : HandPoint)
    (h0 : lms.get? 0 = some wrist) (h4 : lms.get? 4 = some thumbTip)
    (h8 : lms.get? 8 = some indexTip) (h9 : lms.get? 9 = some middleMcp)
    (h5 : lms.get? 5 = some indexMcp) (h17 : lms.get? 17 = some pinkyMcp)
    (hext : extendedFingersCount lms wrist = some extCount)
    (hupd : updateOccupied st lms handed handSize = some (st', hp)) :
    (st'.gesture = Gesture.PINCH ↔
        hypotSq (thumbTip.x - indexTip.x) (thumbTip.y - indexTip.y) < 1/400)
    ∧ (st'.gesture = Gesture.PALM ↔
        (¬ hypotSq (thumbTip.x - indexTip.x) (thumbTip.y - indexTip.y) < 1/400
          ∧ 5 ≤ extCount ∧ isBackFacing wrist indexMcp pinkyMcp handed = true))
    ∧ (st'.gesture = Gesture.NONE ↔
        (¬ hypotSq (thumbTip.x - indexTip.x) (thumbTip.y - indexTip.y) < 1/400
          ∧ ¬(5 ≤ extCount ∧ isBackFacing wrist indexMcp pinkyMcp handed = true)))
    ∧ hp.gesture = st'.gesture := by
  unfold updateOccupied at hupd
  rw [h0, h4, h8, h9, h5, h17] at hupd
  simp only [Option.bind_eq_bind, Option.some_bind] at hupd
  rw [hext] at hupd
  simp only [Option.some_bind, Option.pure_def,
    Option.some.injEq, Prod.mk.injEq] at hupd
  obtain ⟨hst, hhp⟩ := hupd
  subst hst
  subst hhp
  cases hb : isPinchingOf thumbTip indexTip <;>
    cases hpalm : (decide (extCount ≥ 5) && isBackFacing wrist indexMcp pinkyMcp handed) <;>
      simp only [isPinchingOf, decide_eq_true_eq, decide_eq_false_iff_not,
        Bool.and_eq_true, Bool.and_eq_false_iff, not_lt, ge_iff_le,
        decide_eq_false_iff_not, not_and, not_le, one_div] at hb hpalm <;>
      simp [isPinchingOf, hb, hpalm, ge_iff_le, not_and, not_le, one_div] <;>
      (try exact fun hge => hpalm.resolve_left (by omega))

/-- Witness for C3 on the concrete pinching frame c3Lms. -/
theorem gesture_priority_resolution_witness :
    (c3Slot.gesture = Gesture.PINCH ↔
        hypotSq ((1:ℚ)/2 - 1/2) ((1:ℚ)/2 - 1/2) < 1/400)
    ∧ (c3Slot.gesture = Gesture.PALM ↔
        (¬ hypotSq ((1:ℚ)/2 - 1/2) ((1:ℚ)/2 - 1/2) < 1/400
          ∧ 5 ≤ 2 ∧ isBackFacing ⟨0, 0⟩ ⟨0, 0⟩ ⟨0, 0⟩ Handedness.Right = true))
    ∧ (c3Slot.gesture = Gesture.NONE ↔
        (¬ hypotSq ((1:ℚ)/2 - 1/2) ((1:ℚ)/2 - 1/2) < 1/400
          ∧ ¬(5 ≤ 2 ∧ isBackFacing ⟨0, 0⟩ ⟨0, 0⟩ ⟨0, 0⟩ Handedness.Right = true)))
    ∧ c3Point.gesture = c3Slot.gesture :=
  gesture_priority_resolution slotInit c3Lms Handedness.Right 0
    ⟨0, 0⟩ ⟨1/2, 1/2⟩ ⟨1/2, 1/2⟩ ⟨0, 0⟩ ⟨0, 0⟩ ⟨0, 0⟩ 2 c3Slot c3Point
    rfl rfl rfl rfl rfl rfl
    (by norm_num [extendedFingersCount, fingersIndices, fingerExtended, hypotSq,
      c3Lms, List.mapM, List.mapM.loop, List.countP, List.countP.go])
    (by norm_num [updateOccupied, c3Lms, slotInit, c3Slot, c3Point, isPinchingOf,
      hypotSq, lerp, extendedFingersCount, fingersIndices, fingerExtended,
      isBackFacing, clampQ, List.mapM, List.mapM.loop, List.countP, List.countP.go])

/-! ## Claim C8: exported coordinate ranges -/

/-- Counterexample to claim C8 as stated: with raw landmark coordinates
outside [0, 1] the exported HandPoint x coordinate leaves [0, 1] after a
single occupied tick from the startup state (the source never clamps the
smoothed position), so x in [0, 1] does not hold for arbitrary landmark
inputs. -/
theorem handpoint_range_cex :
    updateOccupied slotInit c8Lms Handedness.Right 0 =
      some ({ gesture := Gesture.NONE
              smoothedPos := ⟨23/8, 1/2⟩
              smoothedZ := 0
              indexTipState := ⟨1, 1, 15/2, 15/2⟩ },
            { gesture := Gesture.NONE, x := 23/8, y := 1/2, z := 0
              indexTip := ⟨1, 1, 15/2, 15/2⟩ })
    ∧ ¬((23:ℚ)/8 ≤ 1) := by
  constructor
  · norm_num [updateOccupied, c8Lms, slotInit, isPinchingOf, hypotSq, lerp,
      extendedFingersCount, fingersIndices, fingerExtended, isBackFacing,
      List.mapM, List.mapM.loop, List.countP, List.countP.go]
  · norm_num

/-- Range preservation of one occupied tick, given an in-range frame. -/
theorem updateOccupied_inRange (st : HandSlotState) (lms : List Landmark)
    (handed : Handedness) (handSize : ℚ) (st' : HandSlotState) (hp : HandPoint)
    (hst : slotInRange st) (hlms : lmsInRange lms)
    (hupd : updateOccupied st lms handed handSize = some (st', hp)) :
    slotInRange st'
      ∧ hp.x = st'.smoothedPos.x ∧ hp.y = st'.smoothedPos.y
      ∧ hp.z = st'.smoothedZ := by
  obtain ⟨hx0, hx1, hy0, hy1, hz0, hz1⟩ := hst
  cases h0 : lms.get? 0 with
  | none => rw [updateOccupied, h0] at hupd; simp at hupd
  | some wrist =>
  cases h4 : lms.get? 4 with
  | none => rw [updateOccupied, h0, h4] at hupd; simp at hupd
  | some thumbTip =>
  cases h8 : lms.get? 8 with
  | none => rw [updateOccupied, h0, h4, h8] at hupd; simp at hupd
  | some indexTip =>
  cases h9 : lms.get? 9 with
  | none => rw [updateOccupied, h0, h4, h8, h9] at hupd; simp at hupd
  | some middleMcp =>
  cases h5 : lms.get? 5 with
  | none => rw [updateOccupied, h0, h4, h8, h9, h5] at hupd; simp at hupd
  | some indexMcp =>
  cases h17 : lms.get? 17 with
  | none => rw [updateOccupied, h0, h4, h8, h9, h5, h17] at hupd; simp at hupd
  | some pinkyMcp =>
  cases hec : extendedFingersCount lms wrist with
  | none =>
      rw [updateOccupied, h0, h4, h8, h9, h5, h17] at hupd
      simp only [Option.bind_eq_bind, Option.some_bind] at hupd
      rw [hec] at hupd
      simp at hupd
  | some extCount =>
  rw [updateOccupied, h0, h4, h8, h9, h5, h17] at hupd
  simp only [Option.bind_eq_bind, Option.some_bind] at hupd
  rw [hec] at hupd
  simp only [Option.some_bind, Option.pure_def, Option.some.injEq,
    Prod.mk.injEq] at hupd
  obtain ⟨hst', hhp⟩ := hupd
  subst hst'
  subst hhp
  have hthumb := hlms thumbTip (List.get?_mem h4)
  have hindex := hlms indexTip (List.get?_mem h8)
  have hmiddle := hlms middleMcp (List.get?_mem h9)
  have htX : 0 ≤ (if isPinchingOf thumbTip indexTip = true then
      (thumbTip.x + indexTip.x) / 2 else middleMcp.x)
      ∧ (if isPinchingOf thumbTip indexTip = true then
      (thumbTip.x + indexTip.x) / 2 else middleMcp.x) ≤ 1 := by
    split
    · constructor <;> [linarith [hthumb.1, hindex.1]; linarith [hthumb.2.1, hindex.2.1]]
    · exact ⟨hmiddle.1, hmiddle.2.1⟩
  have htY : 0 ≤ (if isPinchingOf thumbTip indexTip = true then
      (thumbTip.y + indexTip.y) / 2 else middleMcp.y)
      ∧ (if isPinchingOf thumbTip indexTip = true then
      (thumbTip.y + indexTip.y) / 2 else middleMcp.y) ≤ 1 := by
    split
    · constructor <;> [linarith [hthumb.2.2.1, hindex.2.2.1];
        linarith [hthumb.2.2.2, hindex.2.2.2]]
    · exact ⟨hmiddle.2.2.1, hmiddle.2.2.2⟩
  have htZ : 0 ≤ max 0 (min 1 ((handSize - 1/20) / (1/5)))
      ∧ max 0 (min 1 ((handSize - 1/20) / (1/5))) ≤ 1 :=
    ⟨le_max_left _ _, max_le zero_le_one (min_le_left _ _)⟩
  have hmx := lerp_mem_unit st.smoothedPos.x _ (1/4) hx0 hx1 htX.1 htX.2
    (by norm_num) (by norm_num)
  have hmy := lerp_mem_unit st.smoothedPos.y _ (1/4) hy0 hy1 htY.1 htY.2
    (by norm_num) (by norm_num)
  have hmz := lerp_mem_unit st.smoothedZ _ (1/10) hz0 hz1 htZ.1 htZ.2
    (by norm_num) (by norm_num)
  exact ⟨⟨hmx.1, hmx.2, hmy.1, hmy.2, hmz.1, hmz.2⟩, rfl, rfl, rfl⟩

/-- Claim C8 amended: for every tick and every sequence of per-tick inputs
whose landmark coordinates all lie in [0, 1], the slot state and every
exported HandPoint satisfy x, y, z in [0, 1] (starting from the startup
state at (0.5, 0.5) with z = 0); without the landmark range assumption the
source does not clamp x and y. -/
theorem handpoint_range_amended
    (inputs : ℕ → Option (List Landmark × Handedness × ℚ))
    (hin : ∀ n lms hd hs, inputs n = some (lms, hd, hs) → lmsInRange lms) :
    ∀ n, slotInRange (slotTrace inputs n)
      ∧ (∀ hp, slotExport inputs n = some hp →
          0 ≤ hp.x ∧ hp.x ≤ 1 ∧ 0 ≤ hp.y ∧ hp.y ≤ 1 ∧ 0 ≤ hp.z ∧ hp.z ≤ 1) := by
  have hstep : ∀ st inp, (∀ lms hd hs, inp = some (lms, hd, hs) → lmsInRange lms) →
      slotInRange st →
      slotInRange (slotStep st inp).1
        ∧ (∀ hp, (slotStep st inp).2 = some hp →
            0 ≤ hp.x ∧ hp.x ≤ 1 ∧ 0 ≤ hp.y ∧ hp.y ≤ 1 ∧ 0 ≤ hp.z ∧ hp.z ≤ 1) := by
    intro st inp hinp hr
    obtain ⟨hx0, hx1, hy0, hy1, hz0, hz1⟩ := hr
    cases inp with
    | none =>
        have hz := lerp_mem_unit st.smoothedZ 0 (1/10) hz0 hz1 le_rfl zero_le_one
          (by norm_num) (by norm_num)
        refine ⟨⟨hx0, hx1, hy0, hy1, hz.1, hz.2⟩, ?_⟩
        intro hp hhp
        simp only [slotStep, updateUnoccupied, Option.some.injEq] at hhp
        subst hhp
        exact ⟨hx0, hx1, hy0, hy1, hz.1, hz.2⟩
    | some t =>
        obtain ⟨lms, hd, hs⟩ := t
        have hlms := hinp lms hd hs rfl
        cases hupd : updateOccupied st lms hd hs with
        | none =>
            simp only [slotStep, hupd]
            exact ⟨⟨hx0, hx1, hy0, hy1, hz0, hz1⟩, fun hp hhp => by cases hhp⟩
        | some r =>
            obtain ⟨st', hp'⟩ := r
            have h := updateOccupied_inRange st lms hd hs st' hp'
              ⟨hx0, hx1, hy0, hy1, hz0, hz1⟩ hlms hupd
            simp only [slotStep, hupd]
            refine ⟨h.1, ?_⟩
            intro hp hhp
            simp only [Option.some.injEq] at hhp
            subst hhp
            obtain ⟨⟨a1, a2, a3, a4, a5, a6⟩, e1, e2, e3⟩ := h
            rw [e1, e2, e3]
            exact ⟨a1, a2, a3, a4, a5, a6⟩
  intro n
  induction n with
  | zero =>
      refine ⟨by norm_num [slotTrace, slotInit, slotInRange], ?_⟩
      exact (hstep slotInit (inputs 0) (fun l h s e => hin 0 l h s e)
        (by norm_num [slotInit, slotInRange])).2
  | succ n ih =>
      refine ⟨(hstep (slotTrace inputs n) (inputs n)
        (fun l h s e => hin n l h s e) ih.1).1, ?_⟩
      exact (hstep (slotTrace inputs (n+1)) (inputs (n+1))
        (fun l h s e => hin (n+1) l h s e)
        ((hstep (slotTrace inputs n) (inputs n)
          (fun l h s e => hin n l h s e) ih.1).1)).2

/-- Witness for the amended C8 on the all-unoccupied input stream, at
tick 1. -/
theorem handpoint_range_amended_witness :
    slotInRange (slotTrace (fun _ => none) 1)
      ∧ (∀ hp, slotExport (fun _ => none) 1 = some hp →
          0 ≤ hp.x ∧ hp.x ≤ 1 ∧ 0 ≤ hp.y ∧ hp.y ≤ 1 ∧ 0 ≤ hp.z ∧ hp.z ≤ 1) :=
  handpoint_range_amended (fun _ => none) (fun _ _ _ _ h => by cases h) 1

/-! ## Claim C1: intensity stays in the unit interval -/

theorem brushAccumStep_fst_nonneg (r : ℚ) (h : BrushInput) (acc : ℚ × Vec2 × ℚ)
    (ha : 0 ≤ acc.1) : 0 ≤ (brushAccumStep r h acc).1 := by
  simp only [brushAccumStep]
  split
  · split
    · have hb := smoothstepQ_mem r (r * (2/5)) h.dist
      simp only
      linarith [hb.1]
    · exact ha
  · exact ha

theorem brushAccum_fst_nonneg (r : ℚ) (h0 h1 : BrushInput) :
    0 ≤ (brushAccum r h0 h1).1 :=
  brushAccumStep_fst_nonneg r h1 _
    (brushAccumStep_fst_nonneg r h0 _ le_rfl)

theorem decayAlpha_bounds (d : ℚ) (c : SmearCell) (ha0 : 0 ≤ c.a)
    (hb0 : 0 ≤ c.b) (hd0 : 0 ≤ d) (hd1 : d ≤ 1) :
    0 ≤ decayAlpha d c ∧ decayAlpha d c ≤ c.a := by
  simp only [decayAlpha]
  have hden : (0:ℚ) < 1 + c.b * 2 := by linarith
  have hdyn0 : 0 ≤ d / (1 + c.b * 2) := div_nonneg hd0 (le_of_lt hden)
  have hdyn1 : d / (1 + c.b * 2) ≤ 1 := by
    rw [div_le_one hden]
    linarith
  constructor
  · split
    · exact le_rfl
    · nlinarith
  · split
    · exact ha0
    · nlinarith

/-- Intensity and encoded speed of one smearStep stay in the unit interval,
for any normalisation oracle, any per-hand inputs, any radius, a decay rate
in [0, 1] and a nonnegative intensity gain. -/
theorem smearStep_unit (nrm : Vec2 → Vec2) (d r i : ℚ) (h0 h1 : BrushInput)
    (c : SmearCell) (ha0 : 0 ≤ c.a) (ha1 : c.a ≤ 1) (hb0 : 0 ≤ c.b)
    (hb1 : c.b ≤ 1) (hd0 : 0 ≤ d) (hd1 : d ≤ 1) (hi : 0 ≤ i) :
    (0 ≤ (smearStep nrm d r i h0 h1 c).a ∧ (smearStep nrm d r i h0 h1 c).a ≤ 1)
    ∧ (0 ≤ (smearStep nrm d r i h0 h1 c).b ∧ (smearStep nrm d r i h0 h1 c).b ≤ 1) := by
  have hda := decayAlpha_bounds d c ha0 hb0 hd0 hd1
  simp only [smearStep]
  split
  · rename_i htb
    have htb' : 0 < (brushAccum r h0 h1).1 := htb
    have hclamp := clampQ_mem 0 1 (brushAccum r h0 h1).2.2 zero_le_one
    have htmix0 : 0 ≤ min 1 ((brushAccum r h0 h1).1 * (5/2)) :=
      le_min zero_le_one (by linarith)
    have htmix1 : min 1 ((brushAccum r h0 h1).1 * (5/2)) ≤ 1 := min_le_left _ _
    have hlerp := lerp_mem_unit c.b (clampQ 0 1 (brushAccum r h0 h1).2.2)
      (min 1 ((brushAccum r h0 h1).1 * (5/2))) hb0 hb1 hclamp.1 hclamp.2
      htmix0 htmix1
    refine ⟨⟨?_, ?_⟩, hlerp⟩
    · exact le_min zero_le_one (by nlinarith [hda.1])
    · exact min_le_left _ _
  · exact ⟨⟨hda.1, le_trans hda.2 ha1⟩, hb0, hb1⟩

/-- Claim C1: for every reachable accumulation-field cell (iterates of the
per-cell shader update from the cleared target) and every sequence of
per-tick hand inputs and parameter values in their documented ranges
(decay in (0, 0.1], radius in [0.05, 0.4], intensity gain in [0, 2]), the
intensity after each per-tick update lies in [0, 1]; moreover the decay
step multiplies the previous intensity by a factor in [0, 1] and the brush
step clamps the raised intensity at 1 (the min with 1 in smearStep). -/
theorem smear_intensity_unit_interval (nrm : Vec2 → Vec2)
    (params : ℕ → ℚ × ℚ × ℚ) (hands : ℕ → BrushInput × BrushInput)
    (hpar : ∀ n, 0 < (params n).1 ∧ (params n).1 ≤ 1/10
        ∧ 1/20 ≤ (params n).2.1 ∧ (params n).2.1 ≤ 2/5
        ∧ 0 ≤ (params n).2.2 ∧ (params n).2.2 ≤ 2) :
    ∀ n, (0 ≤ (smearIter nrm params hands n).a
        ∧ (smearIter nrm params hands n).a ≤ 1)
      ∧ (0 ≤ (smearIter nrm params hands n).b
        ∧ (smearIter nrm params hands n).b ≤ 1)
      ∧ (0 ≤ 1 - (params n).1 / (1 + (smearIter nrm params hands n).b * 2)
        ∧ 1 - (params n).1 / (1 + (smearIter nrm params hands n).b * 2) ≤ 1) := by
  have factor : ∀ n, (0 ≤ (smearIter nrm params hands n).b
      ∧ (smearIter nrm params hands n).b ≤ 1) →
      0 ≤ 1 - (params n).1 / (1 + (smearIter nrm params hands n).b * 2)
        ∧ 1 - (params n).1 / (1 + (smearIter nrm params hands n).b * 2) ≤ 1 := by
    intro n hb
    obtain ⟨hd0, hd1, -⟩ := hpar n
    have hden : (0:ℚ) < 1 + (smearIter nrm params hands n).b * 2 := by
      linarith [hb.1]
    constructor
    · have : (params n).1 / (1 + (smearIter nrm params hands n).b * 2) ≤ 1 := by
        rw [div_le_one hden]
        linarith
      linarith
    · have : 0 ≤ (params n).1 / (1 + (smearIter nrm params hands n).b * 2) :=
        div_nonneg (le_of_lt hd0) (le_of_lt hden)
      linarith
  have main : ∀ n, (0 ≤ (smearIter nrm params hands n).a
      ∧ (smearIter nrm params hands n).a ≤ 1)
      ∧ (0 ≤ (smearIter nrm params hands n).b
      ∧ (smearIter nrm params hands n).b ≤ 1) := by
    intro n
    induction n with
    | zero => exact ⟨⟨le_rfl, zero_le_one⟩, le_rfl, zero_le_one⟩
    | succ n ih =>
        obtain ⟨hd0, hd1, -, -, hi0, -⟩ := hpar n
        exact smearStep_unit nrm (params n).1 (params n).2.1 (params n).2.2
          (hands n).1 (hands n).2 (smearIter nrm params hands n)
          ih.1.1 ih.1.2 ih.2.1 ih.2.2 (le_of_lt hd0) (by linarith) hi0
  exact fun n => ⟨(main n).1, (main n).2, factor n (main n).2⟩

/-- Witness for C1: constant documented parameters, a moving fingertip
brushing the cell every tick, checked at tick 2. -/
theorem smear_intensity_unit_interval_witness :
    (0 ≤ (smearIter (fun v => v) (fun _ => (1/100, 3/20, 4/5))
        (fun _ => (⟨⟨1, 0⟩, 0, 1⟩, ⟨⟨1, 0⟩, 0, 1⟩)) 2).a
      ∧ (smearIter (fun v => v) (fun _ => (1/100, 3/20, 4/5))
        (fun _ => (⟨⟨1, 0⟩, 0, 1⟩, ⟨⟨1, 0⟩, 0, 1⟩)) 2).a ≤ 1)
    ∧ (0 ≤ (smearIter (fun v => v) (fun _ => (1/100, 3/20, 4/5))
        (fun _ => (⟨⟨1, 0⟩, 0, 1⟩, ⟨⟨1, 0⟩, 0, 1⟩)) 2).b
      ∧ (smearIter (fun v => v) (fun _ => (1/100, 3/20, 4/5))
        (fun _ => (⟨⟨1, 0⟩, 0, 1⟩, ⟨⟨1, 0⟩, 0, 1⟩)) 2).b ≤ 1)
    ∧ (0 ≤ 1 - (1/100 : ℚ) / (1 + (smearIter (fun v => v)
          (fun _ => (1/100, 3/20, 4/5))
          (fun _ => (⟨⟨1, 0⟩, 0, 1⟩, ⟨⟨1, 0⟩, 0, 1⟩)) 2).b * 2)
      ∧ 1 - (1/100 : ℚ) / (1 + (smearIter (fun v => v)
          (fun _ => (1/100, 3/20, 4/5))
          (fun _ => (⟨⟨1, 0⟩, 0, 1⟩, ⟨⟨1, 0⟩, 0, 1⟩)) 2).b * 2) ≤ 1) :=
  smear_intensity_unit_interval (fun v => v) (fun _ => (1/100, 3/20, 4/5))
    (fun _ => (⟨⟨1, 0⟩, 0, 1⟩, ⟨⟨1, 0⟩, 0, 1⟩))
    (fun _ => by norm_num) 2

/-! ## Claim C5: decay formula and bounded fade-out -/

theorem decayAlpha_nonneg (d : ℚ) (c : SmearCell) : 0 ≤ decayAlpha d c := by
  simp only [decayAlpha]
  split
  · exact le_rfl
  · linarith [not_lt.mp (by assumption : ¬ c.a * (1 - d / (1 + c.b * 2)) < 1/200)]

theorem decayAlpha_of_zero (d : ℚ) (c : SmearCell) (h : c.a = 0) :
    decayAlpha d c = 0 := by
  simp [decayAlpha, h]

/-- Claim C5: with no brush at the cell, each tick computes
new intensity = previous intensity * (1 - decayRate / (1 + 2 * speed)) and
snaps it to exactly 0 below 0.005; consequently, for a never-brushed cell
and any decay rate > 0 the intensity is non-increasing tick-over-tick, and
from some tick on it is exactly 0. -/
theorem smear_unbrushed_decay (nrm : Vec2 → Vec2) (uDecay uRadius uIntensity : ℚ)
    (hands : ℕ → BrushInput × BrushInput) (start : SmearCell)
    (hdec : 0 < uDecay) (ha0 : 0 ≤ start.a) (hb0 : 0 ≤ start.b)
    (hnb : ∀ n, ¬ 0 < (brushAccum uRadius (hands n).1 (hands n).2).1) :
    (∀ n, (smearIterFrom nrm (fun _ => (uDecay, uRadius, uIntensity)) hands start (n+1)).a
        = (if (smearIterFrom nrm (fun _ => (uDecay, uRadius, uIntensity)) hands start n).a
              * (1 - uDecay / (1 + (smearIterFrom nrm (fun _ => (uDecay, uRadius, uIntensity)) hands start n).b * 2)) < 1/200
           then 0
           else (smearIterFrom nrm (fun _ => (uDecay, uRadius, uIntensity)) hands start n).a
              * (1 - uDecay / (1 + (smearIterFrom nrm (fun _ => (uDecay, uRadius, uIntensity)) hands start n).b * 2))))
    ∧ (∀ n, (smearIterFrom nrm (fun _ => (uDecay, uRadius, uIntensity)) hands start (n+1)).a
        ≤ (smearIterFrom nrm (fun _ => (uDecay, uRadius, uIntensity)) hands start n).a)
    ∧ (∃ N, ∀ m, N ≤ m →
        (smearIterFrom nrm (fun _ => (uDecay, uRadius, uIntensity)) hands start m).a = 0) := by
  set C := smearIterFrom nrm (fun _ => (uDecay, uRadius, uIntensity)) hands start with hC
  have hstep : ∀ n, C (n+1) =
      { rg := (C n).rg, b := (C n).b, a := decayAlpha uDecay (C n) } := by
    intro n
    rw [hC]
    simp only [smearIterFrom, smearStep]
    rw [if_neg (hnb n)]
  have hbconst : ∀ n, (C n).b = start.b := by
    intro n
    induction n with
    | zero => rfl
    | succ n ih => rw [hstep n]; exact ih
  have hpos : ∀ n, 0 ≤ (C n).a := by
    intro n
    cases n with
    | zero => exact ha0
    | succ n => rw [hstep n]; exact decayAlpha_nonneg _ _
  have hformula : ∀ n, (C (n+1)).a =
      (if (C n).a * (1 - uDecay / (1 + (C n).b * 2)) < 1/200 then 0
       else (C n).a * (1 - uDecay / (1 + (C n).b * 2))) := by
    intro n
    rw [hstep n]
    rfl
  have hden : (0:ℚ) < 1 + start.b * 2 := by linarith
  have hdyn : 0 < uDecay / (1 + start.b * 2) := div_pos hdec hden
  have hmono : ∀ n, (C (n+1)).a ≤ (C n).a := by
    intro n
    rw [hformula n, hbconst n]
    split
    · exact hpos n
    · nlinarith [hpos n, hdyn]
  refine ⟨hformula, hmono, ?_⟩
  have hzero_stay : ∀ m, (C m).a = 0 → ∀ k, m ≤ k → (C k).a = 0 := by
    intro m hm k hk
    induction k, hk using Nat.le_induction with
    | base => exact hm
    | succ k _ ih => rw [hstep k]; exact decayAlpha_of_zero _ _ ih
  set f : ℚ := 1 - uDecay / (1 + start.b * 2) with hf
  rcases le_or_lt f 0 with hf0 | hf0
  · refine ⟨1, fun m hm => hzero_stay 1 ?_ m hm⟩
    rw [hformula 0, hbconst 0]
    rw [if_pos ?_]
    have : (C 0).a * f ≤ 0 := mul_nonpos_of_nonneg_of_nonpos (hpos 0) hf0
    calc (C 0).a * (1 - uDecay / (1 + start.b * 2)) ≤ 0 := this
      _ < 1/200 := by norm_num
  · have hf1 : f < 1 := by
      rw [hf]
      linarith
    obtain ⟨k, hk⟩ := exists_pow_lt_of_lt_one
      (show (0:ℚ) < (1/200) / (start.a + 1) by positivity) hf1
    have hgeo : ∀ n, (C n).a ≤ start.a * f ^ n := by
      intro n
      induction n with
      | zero => simp [hC, smearIterFrom]
      | succ n ih =>
          rw [hformula n, hbconst n]
          have hfn : (0:ℚ) ≤ f ^ n := le_of_lt (pow_pos hf0 n)
          split
          · positivity
          · calc (C n).a * f ≤ (start.a * f ^ n) * f :=
                mul_le_mul_of_nonneg_right ih (le_of_lt hf0)
              _ = start.a * f ^ (n+1) := by ring
    have hsmall : (C k).a < 1/200 := by
      have h1 : (C k).a ≤ start.a * f ^ k := hgeo k
      have h2 : start.a * f ^ k ≤ (start.a + 1) * f ^ k :=
        mul_le_mul_of_nonneg_right (by linarith) (le_of_lt (pow_pos hf0 k))
      have h3 : (start.a + 1) * f ^ k < (start.a + 1) * ((1/200) / (start.a + 1)) :=
        mul_lt_mul_of_pos_left hk (by linarith)
      have h4 : (start.a + 1) * ((1/200) / (start.a + 1)) = 1/200 := by
        field_simp
        ring
      linarith
    refine ⟨k + 1, fun m hm => hzero_stay (k+1) ?_ m hm⟩
    rw [hformula k, hbconst k]
    rw [if_pos ?_]
    have : (C k).a * f ≤ (C k).a * 1 :=
      mul_le_mul_of_nonneg_left (le_of_lt hf1) (hpos k)
    calc (C k).a * (1 - uDecay / (1 + start.b * 2)) ≤ (C k).a * 1 := this
      _ = (C k).a := mul_one _
      _ < 1/200 := hsmall

/-- Witness for C5: decay rate 1/100, both hands below the stroke speed
threshold every tick, start intensity 1. -/
theorem smear_unbrushed_decay_witness :
    (∀ n, (smearIterFrom (fun v => v) (fun _ => ((1:ℚ)/100, 3/20, 4/5))
        (fun _ => (⟨⟨0, 0⟩, 1, 0⟩, ⟨⟨0, 0⟩, 1, 0⟩)) ⟨⟨0, 0⟩, 0, 1⟩ (n+1)).a
        = (if (smearIterFrom (fun v => v) (fun _ => ((1:ℚ)/100, 3/20, 4/5))
              (fun _ => (⟨⟨0, 0⟩, 1, 0⟩, ⟨⟨0, 0⟩, 1, 0⟩)) ⟨⟨0, 0⟩, 0, 1⟩ n).a
              * (1 - (1/100) / (1 + (smearIterFrom (fun v => v) (fun _ => ((1:ℚ)/100, 3/20, 4/5))
              (fun _ => (⟨⟨0, 0⟩, 1, 0⟩, ⟨⟨0, 0⟩, 1, 0⟩)) ⟨⟨0, 0⟩, 0, 1⟩ n).b * 2)) < 1/200
           then 0
           else (smearIterFrom (fun v => v) (fun _ => ((1:ℚ)/100, 3/20, 4/5))
              (fun _ => (⟨⟨0, 0⟩, 1, 0⟩, ⟨⟨0, 0⟩, 1, 0⟩)) ⟨⟨0, 0⟩, 0, 1⟩ n).a
              * (1 - (1/100) / (1 + (smearIterFrom (fun v => v) (fun _ => ((1:ℚ)/100, 3/20, 4/5))
              (fun _ => (⟨⟨0, 0⟩, 1, 0⟩, ⟨⟨0, 0⟩, 1, 0⟩)) ⟨⟨0, 0⟩, 0, 1⟩ n).b * 2))))
    ∧ (∀ n, (smearIterFrom (fun v => v) (fun _ => ((1:ℚ)/100, 3/20, 4/5))
        (fun _ => (⟨⟨0, 0⟩, 1, 0⟩, ⟨⟨0, 0⟩, 1, 0⟩)) ⟨⟨0, 0⟩, 0, 1⟩ (n+1)).a
        ≤ (smearIterFrom (fun v => v) (fun _ => ((1:ℚ)/100, 3/20, 4/5))
        (fun _ => (⟨⟨0, 0⟩, 1, 0⟩, ⟨⟨0, 0⟩, 1, 0⟩)) ⟨⟨0, 0⟩, 0, 1⟩ n).a)
    ∧ (∃ N, ∀ m, N ≤ m →
        (smearIterFrom (fun v => v) (fun _ => ((1:ℚ)/100, 3/20, 4/5))
        (fun _ => (⟨⟨0, 0⟩, 1, 0⟩, ⟨⟨0, 0⟩, 1, 0⟩)) ⟨⟨0, 0⟩, 0, 1⟩ m).a = 0) :=
  smear_unbrushed_decay (fun v => v) (1/100) (3/20) (4/5)
    (fun _ => (⟨⟨0, 0⟩, 1, 0⟩, ⟨⟨0, 0⟩, 1, 0⟩)) ⟨⟨0, 0⟩, 0, 1⟩
    (by norm_num) (by norm_num) (by norm_num)
    (fun n => by norm_num [brushAccum, brushAccumStep])

/-! ## Claim C7: error policy of the classifier and the field update -/

/-- Counterexample to claim C7 as stated.  Two hands move toward each other
at genuine speed 0.03 (the velMag inputs are the true lengths of the
velocity vectors, as the squared equations record) with fingertips at the
cell, so both pass the 0.02 stroke threshold with brush weight 1; the
accumulated brush weight is 2 > 0 while the combined direction vector is
exactly zero, so the shader evaluates normalize(totalVel) on a zero-length
vector with no guard (the checked step reports none).  Also, the classifier
performs no landmark-count check: on an empty landmark list the occupied
update fails (none) instead of yielding gesture NONE. -/
theorem smear_guarded_normalization_cex :
    ((3:ℚ)/100) * (3/100) = Vec2.lengthSq ⟨3/100, 0⟩
    ∧ ((3:ℚ)/100) * (3/100) = Vec2.lengthSq ⟨-(3/100), 0⟩
    ∧ 0 < (brushAccum (3/20) ⟨⟨3/100, 0⟩, 0, 3/100⟩ ⟨⟨-(3/100), 0⟩, 0, 3/100⟩).1
    ∧ (brushAccum (3/20) ⟨⟨3/100, 0⟩, 0, 3/100⟩ ⟨⟨-(3/100), 0⟩, 0, 3/100⟩).2.1
        = Vec2.zero
    ∧ smearStepChecked (fun v => v) (1/100) (3/20) (4/5)
        ⟨⟨3/100, 0⟩, 0, 3/100⟩ ⟨⟨-(3/100), 0⟩, 0, 3/100⟩ smearZero = none
    ∧ updateOccupied slotInit [] Handedness.Right 0 = none := by
  refine ⟨by norm_num [Vec2.lengthSq], by norm_num [Vec2.lengthSq], ?_, ?_, ?_, ?_⟩
  · norm_num [brushAccum, brushAccumStep, smoothstepQ, clampQ, Vec2.scale,
      Vec2.add, Vec2.zero]
  · norm_num [brushAccum, brushAccumStep, smoothstepQ, clampQ, Vec2.scale,
      Vec2.add, Vec2.zero]
  · norm_num [smearStepChecked, brushAccum, brushAccumStep, smoothstepQ,
      clampQ, Vec2.scale, Vec2.add, Vec2.zero, Vec2.lengthSq]
  · rfl

/-- Claim C7 amended: the per-hand velocity normalisation of the field
update is guarded by the stroke-speed check (a hand at or below speed 0.02
contributes nothing, so its normalize is skipped), and the update is
well defined whenever either no brush weight accumulated or the combined
direction vector has nonzero length; the combined normalisation itself is
not guarded by a magnitude check, and a landmark list missing a required
point makes the occupied classifier update fail rather than yield NONE. -/
theorem smear_guarded_normalization (nrm : Vec2 → Vec2) (d r i : ℚ)
    (h0 h1 : BrushInput) (acc : ℚ × Vec2 × ℚ) (c : SmearCell) :
    (h0.velMag ≤ 1/50 → brushAccumStep r h0 acc = acc)
    ∧ (¬ 0 < (brushAccum r h0 h1).1 →
        smearStepChecked nrm d r i h0 h1 c = some (smearStep nrm d r i h0 h1 c))
    ∧ ((brushAccum r h0 h1).2.1.lengthSq ≠ 0 →
        smearStepChecked nrm d r i h0 h1 c = some (smearStep nrm d r i h0 h1 c)) := by
  refine ⟨?_, ?_, ?_⟩
  · intro hle
    simp only [brushAccumStep]
    rw [if_neg (not_lt.mpr hle)]
  · intro htb
    simp only [smearStepChecked]
    rw [if_neg ?_]
    rintro ⟨h, -⟩
    exact htb h
  · intro htv
    simp only [smearStepChecked]
    rw [if_neg ?_]
    rintro ⟨-, h⟩
    exact htv h

/-- Witness for the amended C7: a hand below the stroke threshold is
skipped, and the no-brush step is well defined. -/
theorem smear_guarded_normalization_witness :
    (brushAccumStep (3/20) ⟨⟨0, 0⟩, 0, 0⟩ (0, Vec2.zero, 0) = (0, Vec2.zero, 0))
    ∧ smearStepChecked (fun v => v) (1/100) (3/20) (4/5)
        ⟨⟨0, 0⟩, 0, 0⟩ ⟨⟨0, 0⟩, 0, 0⟩ smearZero
      = some (smearStep (fun v => v) (1/100) (3/20) (4/5)
          ⟨⟨0, 0⟩, 0, 0⟩ ⟨⟨0, 0⟩, 0, 0⟩ smearZero) :=
  have h := smear_guarded_normalization (fun v => v) (1/100) (3/20) (4/5)
    ⟨⟨0, 0⟩, 0, 0⟩ ⟨⟨0, 0⟩, 0, 0⟩ (0, Vec2.zero, 0) smearZero
  ⟨h.1 (by norm_num),
   h.2.1 (by norm_num [brushAccum, brushAccumStep])⟩

/-! ## Claim C2: idle spring reaches exactly zero

The idle branch of HandPhysics.update is, before the snap test, the linear
map (s, v) to (s + dt * v', v') with v' = v + dt * (-10 s - d v) and
d = dampingOf e.  The form lyapV is the classical invariant quadratic form
of that map: one step scales it exactly by (1 - d * dt), and on the
parameter box e in [0, 1], dt in (0, 1/10] it is positive definite.  The
snap only ever moves the state to the origin, where the form is zero, so
the form decays geometrically along the iteration, eventually forces the
freshly integrated values under both snap thresholds, and the snap then
produces exactly (0, 0), which is a fixed point. -/

theorem dampingOf_mem (e : ℚ) (he0 : 0 ≤ e) (he1 : e ≤ 1) :
    1/4 ≤ dampingOf e ∧ dampingOf e ≤ 21/4 := by
  unfold dampingOf
  constructor <;> linarith

/-- Positivity margin of the Lyapunov form, as an explicit certificate on
the parameter box. -/
theorem lyap_margin (d t : ℚ) (hd1 : 1/4 ≤ d) (hd2 : d ≤ 21/4)
    (ht0 : 0 < t) (ht1 : t ≤ 1/10) :
    0 ≤ 4 * (999/100) * (1 - d * t - 1/100) - (d - 10 * t) ^ 2 := by
  nlinarith [mul_nonneg (by linarith : (0:ℚ) ≤ 21/4 - d) (by linarith : (0:ℚ) ≤ d + 3623/500),
    mul_nonneg (by linarith : (0:ℚ) ≤ 1/10 - t) (by linarith : (0:ℚ) ≤ d),
    mul_nonneg (by linarith : (0:ℚ) ≤ 1/10 - t) (by linarith : (0:ℚ) ≤ 1/10 + t)]

theorem lyap_scalar_lower (d t x y : ℚ) (hd1 : 1/4 ≤ d) (hd2 : d ≤ 21/4)
    (ht0 : 0 < t) (ht1 : t ≤ 1/10) :
    (1/100) * (x * x + y * y) ≤
      10 * (x * x) + (d - 10 * t) * (x * y) + (1 - d * t) * (y * y) := by
  have hF := lyap_margin d t hd1 hd2 ht0 ht1
  nlinarith [sq_nonneg (2 * (999/100) * x + (d - 10 * t) * y),
    mul_nonneg hF (mul_self_nonneg y)]

theorem lyapV_lower (e dt : ℚ) (he0 : 0 ≤ e) (he1 : e ≤ 1) (ht0 : 0 < dt)
    (ht1 : dt ≤ 1/10) (s v : Vec2) :
    (1/100) * (s.lengthSq + v.lengthSq) ≤ lyapV e dt s v := by
  obtain ⟨hd1, hd2⟩ := dampingOf_mem e he0 he1
  have hx := lyap_scalar_lower (dampingOf e) dt s.x v.x hd1 hd2 ht0 ht1
  have hy := lyap_scalar_lower (dampingOf e) dt s.y v.y hd1 hd2 ht0 ht1
  simp only [lyapV, Vec2.lengthSq, Vec2.dot]
  nlinarith [hx, hy]

theorem lyapV_nonneg (e dt : ℚ) (he0 : 0 ≤ e) (he1 : e ≤ 1) (ht0 : 0 < dt)
    (ht1 : dt ≤ 1/10) (s v : Vec2) : 0 ≤ lyapV e dt s v := by
  have h := lyapV_lower e dt he0 he1 ht0 ht1 s v
  have hs := Vec2.lengthSq_nonneg s
  have hv := Vec2.lengthSq_nonneg v
  nlinarith

/-- The exact one-step identity: the semi-implicit Euler step of the idle
branch scales lyapV by exactly (1 - dampingOf e * dt). -/
theorem lyapV_euler_step (e dt : ℚ) (s v : Vec2) :
    lyapV e dt
      (s.add ((v.add (((s.scale (-10)).add (v.scale (-(5 * (21/20 - e))))).scale dt)).scale dt))
      (v.add (((s.scale (-10)).add (v.scale (-(5 * (21/20 - e))))).scale dt))
      = (1 - dampingOf e * dt) * lyapV e dt s v := by
  simp only [lyapV, dampingOf, Vec2.add, Vec2.scale, Vec2.lengthSq, Vec2.dot]
  ring

/-- One idle tick does not increase lyapV by more than the factor
(1 - dampingOf e * dt): the snap branch moves to the origin where the form
is zero, the other branch satisfies the exact identity. -/
theorem physUpdate_idle_lyap (st : PhysState) (p : Vec2) (g : Gesture)
    (e dt : ℚ) (hg : g ≠ Gesture.PINCH) (he0 : 0 ≤ e) (he1 : e ≤ 1)
    (ht0 : 0 < dt) (ht1 : dt ≤ 1/10) :
    lyapV e dt (physUpdate st p g e dt).currentStretch
        (physUpdate st p g e dt).velocity
      ≤ (1 - dampingOf e * dt)
          * lyapV e dt st.currentStretch st.velocity := by
  obtain ⟨hd1, hd2⟩ := dampingOf_mem e he0 he1
  have hq0 : 0 ≤ 1 - dampingOf e * dt := by nlinarith
  have hzero : lyapV e dt Vec2.zero Vec2.zero = 0 := by
    simp [lyapV, Vec2.zero, Vec2.lengthSq, Vec2.dot]
  have hV0 := lyapV_nonneg e dt he0 he1 ht0 ht1 st.currentStretch st.velocity
  cases g with
  | PINCH => exact absurd rfl hg
  | NONE =>
      simp only [physUpdate]
      rw [if_neg hg]
      split
      · calc lyapV e dt Vec2.zero Vec2.zero = 0 := hzero
          _ ≤ _ := mul_nonneg hq0 hV0
      · exact le_of_eq (lyapV_euler_step e dt st.currentStretch st.velocity)
  | PALM =>
      simp only [physUpdate]
      rw [if_neg hg]
      split
      · calc lyapV e dt Vec2.zero Vec2.zero = 0 := hzero
          _ ≤ _ := mul_nonneg hq0 hV0
      · exact le_of_eq (lyapV_euler_step e dt st.currentStretch st.velocity)

/-- The origin is a fixed point of the idle tick. -/
theorem physUpdate_idle_zero (st : PhysState) (p : Vec2) (g : Gesture)
    (e dt : ℚ) (hg : g ≠ Gesture.PINCH) (hs : st.currentStretch = Vec2.zero)
    (hv : st.velocity = Vec2.zero) :
    (physUpdate st p g e dt).currentStretch = Vec2.zero
    ∧ (physUpdate st p g e dt).velocity = Vec2.zero := by
  cases g with
  | PINCH => exact absurd rfl hg
  | NONE =>
      simp only [physUpdate]
      rw [if_neg hg, hs, hv]
      norm_num [Vec2.add, Vec2.scale, Vec2.zero, Vec2.lengthSq]
  | PALM =>
      simp only [physUpdate]
      rw [if_neg hg, hs, hv]
      norm_num [Vec2.add, Vec2.scale, Vec2.zero, Vec2.lengthSq]

/-- Claim C2 amended: for every finite initial stretch and velocity, any
elasticity in [0, 1], and a fixed per-tick dt in (0, 0.1], once the gesture
is and remains non-PINCH the iterated HandPhysics.update brings stretch and
velocity to exactly (0, 0) after finitely many ticks, and they stay there
(a positive lower bound on the tick length is necessary, see the
counterexample with dt = 0). -/
theorem phys_idle_reaches_zero (e dt : ℚ) (pos : ℕ → Vec2)
    (g : ℕ → Gesture) (st0 : PhysState) (he0 : 0 ≤ e) (he1 : e ≤ 1)
    (ht0 : 0 < dt) (ht1 : dt ≤ 1/10) (hg : ∀ n, g n ≠ Gesture.PINCH) :
    ∃ N, ∀ m, N ≤ m →
      (physIter e dt pos g st0 m).currentStretch = Vec2.zero
      ∧ (physIter e dt pos g st0 m).velocity = Vec2.zero := by
  obtain ⟨hd1, hd2⟩ := dampingOf_mem e he0 he1
  have hq0 : 0 ≤ 1 - dampingOf e * dt := by nlinarith
  have hq1 : 1 - dampingOf e * dt < 1 := by nlinarith
  have hV0 := lyapV_nonneg e dt he0 he1 ht0 ht1 st0.currentStretch st0.velocity
  have hdecay : ∀ n,
      lyapV e dt (physIter e dt pos g st0 n).currentStretch
          (physIter e dt pos g st0 n).velocity
        ≤ (1 - dampingOf e * dt) ^ n
            * lyapV e dt st0.currentStretch st0.velocity := by
    intro n
    induction n with
    | zero => simp [physIter]
    | succ n ih =>
        have hstep := physUpdate_idle_lyap (physIter e dt pos g st0 n) (pos n)
          (g n) e dt (hg n) he0 he1 ht0 ht1
        calc lyapV e dt (physIter e dt pos g st0 (n+1)).currentStretch
              (physIter e dt pos g st0 (n+1)).velocity
            ≤ (1 - dampingOf e * dt)
                * lyapV e dt (physIter e dt pos g st0 n).currentStretch
                    (physIter e dt pos g st0 n).velocity := hstep
          _ ≤ (1 - dampingOf e * dt)
                * ((1 - dampingOf e * dt) ^ n
                  * lyapV e dt st0.currentStretch st0.velocity) :=
              mul_le_mul_of_nonneg_left ih hq0
          _ = (1 - dampingOf e * dt) ^ (n+1)
                * lyapV e dt st0.currentStretch st0.velocity := by ring
  obtain ⟨k, hk⟩ := exists_pow_lt_of_lt_one
    (show (0:ℚ) < (1/10000000)
        / (lyapV e dt st0.currentStretch st0.velocity + 1) by positivity) hq1
  have hVk : lyapV e dt (physIter e dt pos g st0 k).currentStretch
      (physIter e dt pos g st0 k).velocity < 1/10000000 := by
    have h1 := hdecay k
    have h2 : (1 - dampingOf e * dt) ^ k
        * lyapV e dt st0.currentStretch st0.velocity
        ≤ (1 - dampingOf e * dt) ^ k
          * (lyapV e dt st0.currentStretch st0.velocity + 1) :=
      mul_le_mul_of_nonneg_left (by linarith) (pow_nonneg hq0 k)
    have h3 : (1 - dampingOf e * dt) ^ k
        * (lyapV e dt st0.currentStretch st0.velocity + 1)
        < ((1/10000000) / (lyapV e dt st0.currentStretch st0.velocity + 1))
          * (lyapV e dt st0.currentStretch st0.velocity + 1) :=
      mul_lt_mul_of_pos_right hk (by positivity)
    have h4 : ((1/10000000) / (lyapV e dt st0.currentStretch st0.velocity + 1))
        * (lyapV e dt st0.currentStretch st0.velocity + 1) = 1/10000000 := by
      field_simp
      ring
    linarith
  have hsnap : (physIter e dt pos g st0 (k+1)).currentStretch = Vec2.zero
      ∧ (physIter e dt pos g st0 (k+1)).velocity = Vec2.zero := by
    have hV' : lyapV e dt
        (((physIter e dt pos g st0 k).currentStretch).add
          ((((physIter e dt pos g st0 k).velocity).add
            (((((physIter e dt pos g st0 k).currentStretch).scale (-10)).add
              (((physIter e dt pos g st0 k).velocity).scale
                (-(5 * (21/20 - e))))).scale dt)).scale dt))
        (((physIter e dt pos g st0 k).velocity).add
          (((((physIter e dt pos g st0 k).currentStretch).scale (-10)).add
            (((physIter e dt pos g st0 k).velocity).scale
              (-(5 * (21/20 - e))))).scale dt))
        = (1 - dampingOf e * dt)
          * lyapV e dt (physIter e dt pos g st0 k).currentStretch
              (physIter e dt pos g st0 k).velocity :=
      lyapV_euler_step e dt _ _
    have hVlt : lyapV e dt
        (((physIter e dt pos g st0 k).currentStretch).add
          ((((physIter e dt pos g st0 k).velocity).add
            (((((physIter e dt pos g st0 k).currentStretch).scale (-10)).add
              (((physIter e dt pos g st0 k).velocity).scale
                (-(5 * (21/20 - e))))).scale dt)).scale dt))
        (((physIter e dt pos g st0 k).velocity).add
          (((((physIter e dt pos g st0 k).currentStretch).scale (-10)).add
            (((physIter e dt pos g st0 k).velocity).scale
              (-(5 * (21/20 - e))))).scale dt)) < 1/10000000 := by
      rw [hV']
      have hVk0 := lyapV_nonneg e dt he0 he1 ht0 ht1
        (physIter e dt pos g st0 k).currentStretch
        (physIter e dt pos g st0 k).velocity
      nlinarith
    have hlow := lyapV_lower e dt he0 he1 ht0 ht1
      (((physIter e dt pos g st0 k).currentStretch).add
        ((((physIter e dt pos g st0 k).velocity).add
          (((((physIter e dt pos g st0 k).currentStretch).scale (-10)).add
            (((physIter e dt pos g st0 k).velocity).scale
              (-(5 * (21/20 - e))))).scale dt)).scale dt))
      (((physIter e dt pos g st0 k).velocity).add
        (((((physIter e dt pos g st0 k).currentStretch).scale (-10)).add
          (((physIter e dt pos g st0 k).velocity).scale
            (-(5 * (21/20 - e))))).scale dt))
    have hs' : (((physIter e dt pos g st0 k).currentStretch).add
        ((((physIter e dt pos g st0 k).velocity).add
          (((((physIter e dt pos g st0 k).currentStretch).scale (-10)).add
            (((physIter e dt pos g st0 k).velocity).scale
              (-(5 * (21/20 - e))))).scale dt)).scale dt)).lengthSq
        < 1/100000 := by
      nlinarith [Vec2.lengthSq_nonneg
        (((physIter e dt pos g st0 k).velocity).add
          (((((physIter e dt pos g st0 k).currentStretch).scale (-10)).add
            (((physIter e dt pos g st0 k).velocity).scale
              (-(5 * (21/20 - e))))).scale dt))]
    have hv' : ((((physIter e dt pos g st0 k).velocity).add
        (((((physIter e dt pos g st0 k).currentStretch).scale (-10)).add
          (((physIter e dt pos g st0 k).velocity).scale
            (-(5 * (21/20 - e))))).scale dt))).lengthSq < 1/10000 := by
      nlinarith [Vec2.lengthSq_nonneg
        (((physIter e dt pos g st0 k).currentStretch).add
          ((((physIter e dt pos g st0 k).velocity).add
            (((((physIter e dt pos g st0 k).currentStretch).scale (-10)).add
              (((physIter e dt pos g st0 k).velocity).scale
                (-(5 * (21/20 - e))))).scale dt)).scale dt))]
    have hstep : physIter e dt pos g st0 (k+1)
        = physUpdate (physIter e dt pos g st0 k) (pos k) (g k) e dt := rfl
    rw [hstep]
    cases hgk : g k with
    | PINCH => exact absurd hgk (hg k)
    | NONE =>
        simp only [physUpdate]
        rw [if_neg (by simp : ¬ (Gesture.NONE = Gesture.PINCH))]
        split
        · exact ⟨rfl, rfl⟩
        · rename_i hcond
          exact absurd ⟨hs', hv'⟩ hcond
    | PALM =>
        simp only [physUpdate]
        rw [if_neg (by simp : ¬ (Gesture.PALM = Gesture.PINCH))]
        split
        · exact ⟨rfl, rfl⟩
        · rename_i hcond
          exact absurd ⟨hs', hv'⟩ hcond
  refine ⟨k + 1, fun m hm => ?_⟩
  induction m, hm using Nat.le_induction with
  | base => exact hsnap
  | succ m hm ih =>
      exact physUpdate_idle_zero (physIter e dt pos g st0 m) (pos m) (g m)
        e dt (hg m) ih.1 ih.2

/-- Witness for the amended C2: elasticity 9/10, dt exactly the 0.1 clamp,
unit stretch start, all ticks NONE. -/
theorem phys_idle_reaches_zero_witness :
    ∃ N, ∀ m, N ≤ m →
      (physIter (9/10) (1/10) (fun _ => ⟨1/2, 1/2⟩) (fun _ => Gesture.NONE)
        ⟨⟨1/2, 1/2⟩, ⟨1, 0⟩, ⟨0, 0⟩, false⟩ m).currentStretch = Vec2.zero
      ∧ (physIter (9/10) (1/10) (fun _ => ⟨1/2, 1/2⟩) (fun _ => Gesture.NONE)
        ⟨⟨1/2, 1/2⟩, ⟨1, 0⟩, ⟨0, 0⟩, false⟩ m).velocity = Vec2.zero :=
  phys_idle_reaches_zero (9/10) (1/10) (fun _ => ⟨1/2, 1/2⟩)
    (fun _ => Gesture.NONE) ⟨⟨1/2, 1/2⟩, ⟨1, 0⟩, ⟨0, 0⟩, false⟩
    (by norm_num) (by norm_num) (by norm_num) (by norm_num)
    (fun _ => (by decide : Gesture.NONE ≠ Gesture.PINCH))

/-- Counterexample to claim C2 as stated: with per-tick dt = 0 (a frame
delta of zero is clamped to dt = 0 by the driving loop) every idle update
leaves the state unchanged, so stretch and velocity never reach (0, 0) in
any finite number of ticks, refuting the claim for arbitrary per-tick
dt. -/
theorem phys_idle_zero_dt_stalls_cex :
    ¬ ∃ N, (physIter (9/10) 0 (fun _ => ⟨1/2, 1/2⟩) (fun _ => Gesture.NONE)
          c2State N).currentStretch = Vec2.zero
        ∧ (physIter (9/10) 0 (fun _ => ⟨1/2, 1/2⟩) (fun _ => Gesture.NONE)
          c2State N).velocity = Vec2.zero := by
  have hconst : ∀ n, physIter (9/10) 0 (fun _ => ⟨1/2, 1/2⟩)
      (fun _ => Gesture.NONE) c2State n = c2State := by
    intro n
    induction n with
    | zero => rfl
    | succ n ih =>
        have hstep : physIter (9/10) 0 (fun _ => ⟨1/2, 1/2⟩)
            (fun _ => Gesture.NONE) c2State (n+1)
            = physUpdate c2State ⟨1/2, 1/2⟩ Gesture.NONE (9/10) 0 := by
          rw [show physIter (9/10) 0 (fun _ => ⟨1/2, 1/2⟩)
            (fun _ => Gesture.NONE) c2State (n+1)
            = physUpdate (physIter (9/10) 0 (fun _ => ⟨1/2, 1/2⟩)
              (fun _ => Gesture.NONE) c2State n) ⟨1/2, 1/2⟩ Gesture.NONE
              (9/10) 0 from rfl, ih]
        rw [hstep]
        norm_num [physUpdate, c2State, Vec2.add, Vec2.scale, Vec2.zero,
          Vec2.lengthSq]
        decide
  rintro ⟨N, hsz, -⟩
  rw [hconst N] at hsz
  have : ((1:ℚ)/10) = 0 := congrArg Vec2.x hsz
  norm_num at this

end SuspReal
